import Mathlib

/-!
Shallow embedding of the two-pass video rate-control engine of
`libavcodec/ratecontrol.c`, together with proofs of the spec's testable
properties.

Modelling conventions:
* C `double` values are embedded as `ℚ` (exact rational arithmetic);
  C `int`/`int64_t`/`uint64_t` values as `ℤ` or `ℕ`.
* A C conversion from `double` to `int` truncates toward zero; this is
  `ratTrunc` below.
* The transcendental library calls (`sqrt`, `pow`, `exp`, `log`) and the
  user rate-equation evaluator `av_expr_eval` have no exact rational
  counterpart; they are passed in as an oracle record `MathOracle` and the
  theorems quantify over every oracle, so every real execution is an
  instance of the model.  `exprEval` returning `none` models a NaN result.
* The override list is modelled pre-parsed (the C code re-parses the
  override string on every `get_qscale` call; the parse itself is pure).
-/

/-- Constant FF_QP2LAMBDA from libavutil (lambda units per qp step). -/
def FF_QP2LAMBDA : ℤ := 118

/-- Constant FF_LAMBDA_MAX from libavutil, equal to 256*128-1. -/
def FF_LAMBDA_MAX : ℤ := 256 * 128 - 1

/-- Picture type constants from enum AVPictureType. -/
def AV_PICTURE_TYPE_I : ℕ := 1

/-- Picture type constant for forward predicted frames. -/
def AV_PICTURE_TYPE_P : ℕ := 2

/-- Picture type constant for bi-predicted frames. -/
def AV_PICTURE_TYPE_B : ℕ := 3

/-- The av_clip function from libavutil/common.h on machine integers. -/
def av_clip (a amin amax : ℤ) : ℤ :=
  if a < amin then amin else if a > amax then amax else a

/-- C conversion of a floating value to an integer type: truncation toward
zero. -/
def ratTrunc (x : ℚ) : ℤ := if 0 ≤ x then ⌊x⌋ else ⌈x⌉

/-- Structure RateControlEntry from ratecontrol.h: the per-frame statistics
record.  Integer fields are C ints, `qscale` and `new_qscale` are floats. -/
structure RateControlEntry where
  pict_type : ℕ
  qscale : ℚ
  mv_bits : ℤ
  i_tex_bits : ℤ
  p_tex_bits : ℤ
  misc_bits : ℤ
  header_bits : ℤ
  expected_bits : ℤ
  new_pict_type : ℕ
  new_qscale : ℚ
  mc_mb_var_sum : ℤ
  mb_var_sum : ℤ
  i_count : ℤ
  skip_count : ℤ
  f_code : ℤ
  b_code : ℤ
  deriving Repr, Inhabited

/-- Function qp2bits from ratecontrol.c: implied bit count of a frame at
quantizer `qp`. -/
def qp2bits (rce : RateControlEntry) (qp : ℚ) : ℚ :=
  rce.qscale * ((rce.i_tex_bits : ℚ) + (rce.p_tex_bits : ℚ) + 1) / qp

/-- Function bits2qp from ratecontrol.c: quantizer implied by a bit count. -/
def bits2qp (rce : RateControlEntry) (bits : ℚ) : ℚ :=
  rce.qscale * ((rce.i_tex_bits : ℚ) + (rce.p_tex_bits : ℚ) + 1) / bits

/-- Structure RcOverride from ratecontrol.h (pre-parsed form). -/
structure RcOverride where
  start_frame : ℤ
  end_frame : ℤ
  qscale : ℤ
  quality_factor : ℚ
  deriving Repr

/-- Predictor structure from ratecontrol.h: exponential-decay linear model. -/
structure Predictor where
  coeff : ℚ
  count : ℚ
  decay : ℚ
  deriving Repr

/-- Function predict_size from ratecontrol.c. -/
def predict_size (p : Predictor) (q : ℚ) (var : ℚ) : ℚ :=
  p.coeff * var / (q * p.count)

/-- Function update_predictor from ratecontrol.c: exponentially decayed
running average of the implied coefficient; a no-op when the variance is
below 10. -/
def update_predictor (p : Predictor) (q : ℚ) (var : ℚ) (size : ℚ) : Predictor :=
  if var < 10 then p
  else
    let new_coeff := size * q / (var + 1)
    { p with count := p.count * p.decay + 1, coeff := p.coeff * p.decay + new_coeff }

/-- Configuration fields read by the rate controller: the relevant
AVCodecContext and RateControlContext option fields.  `fps` stands for
`1 / av_q2d(avctx->time_base)`.  `pass2` is the AV_CODEC_FLAG_PASS2 flag,
`is_mpeg4` is the `codec_id == AV_CODEC_ID_MPEG4` test in ff_vbv_update. -/
structure RcConfig where
  i_quant_factor : ℚ
  i_quant_offset : ℚ
  b_quant_factor : ℚ
  b_quant_offset : ℚ
  max_qdiff : ℤ
  lmin : ℤ
  lmax : ℤ
  rc_buffer_size : ℤ
  rc_min_rate : ℚ
  rc_max_rate : ℚ
  fps : ℚ
  rc_qmod_freq : ℤ
  rc_qmod_amp : ℚ
  rc_buffer_aggressivity : ℚ
  rc_qsquish : ℚ
  rc_min_vbv_overflow_use : ℚ
  rc_max_available_vbv_use : ℚ
  bit_rate : ℚ
  bit_rate_tolerance : ℚ
  qblur : ℚ
  max_b_frames : ℤ
  mb_num : ℤ
  pass2 : Bool
  is_mpeg4 : Bool
  overrides : List RcOverride

/-- Mutable state of the rate controller: the RateControlContext fields
written during estimation.  Per-picture-type arrays (C arrays of size 5)
are embedded as functions on the type index. -/
structure RateControlState where
  buffer_index : ℚ
  pred : ℕ → Predictor
  short_term_qsum : ℚ
  short_term_qcount : ℚ
  pass1_rc_eq_output_sum : ℚ
  pass1_wanted_bits : ℚ
  last_qscale : ℚ
  last_qscale_for : ℕ → ℚ
  last_mc_mb_var_sum : ℤ
  last_mb_var_sum : ℤ
  i_cplx_sum : ℕ → ℚ
  p_cplx_sum : ℕ → ℚ
  mv_bits_sum : ℕ → ℚ
  qscale_sum : ℕ → ℚ
  frame_count : ℕ → ℤ
  last_non_b_pict_type : ℕ
  entry : List RateControlEntry

/-- Function get_qminmax from ratecontrol.c: per-picture-type quantizer
range, scaled by the I/B quant factor and offset and clamped to
`[1, FF_LAMBDA_MAX]`; an inverted range raises qmax to qmin. -/
def get_qminmax (cfg : RcConfig) (pict_type : ℕ) : ℤ × ℤ :=
  let scaled : ℤ × ℤ :=
    if pict_type = AV_PICTURE_TYPE_B then
      (ratTrunc ((cfg.lmin : ℚ) * |cfg.b_quant_factor| + cfg.b_quant_offset + 1/2),
       ratTrunc ((cfg.lmax : ℚ) * |cfg.b_quant_factor| + cfg.b_quant_offset + 1/2))
    else if pict_type = AV_PICTURE_TYPE_I then
      (ratTrunc ((cfg.lmin : ℚ) * |cfg.i_quant_factor| + cfg.i_quant_offset + 1/2),
       ratTrunc ((cfg.lmax : ℚ) * |cfg.i_quant_factor| + cfg.i_quant_offset + 1/2))
    else (cfg.lmin, cfg.lmax)
  let qmin := av_clip scaled.1 1 FF_LAMBDA_MAX
  let qmax := av_clip scaled.2 1 FF_LAMBDA_MAX
  (qmin, if qmax < qmin then qmin else qmax)

/-- Function ff_vbv_update from ratecontrol.c, acting on the buffer
occupancy `buffer_index` and returning the stuffing byte count together
with the new occupancy.  `left`, the av_clip arguments and the stuffing
count are C ints, hence the truncations. -/
def ff_vbv_update (cfg : RcConfig) (buffer_index : ℚ) (frame_size : ℤ) : ℤ × ℚ :=
  let min_rate : ℚ := cfg.rc_min_rate / cfg.fps
  let max_rate : ℚ := cfg.rc_max_rate / cfg.fps
  if cfg.rc_buffer_size ≠ 0 then
    let bi1 := buffer_index - (frame_size : ℚ)
    let bi2 := if bi1 < 0 then 0 else bi1
    let left : ℤ := ratTrunc ((cfg.rc_buffer_size : ℚ) - bi2 - 1)
    let bi3 := bi2 + ((av_clip left (ratTrunc min_rate) (ratTrunc max_rate) : ℤ) : ℚ)
    if bi3 > (cfg.rc_buffer_size : ℚ) then
      let stuffing0 : ℤ := ⌈(bi3 - (cfg.rc_buffer_size : ℚ)) / 8⌉
      let stuffing : ℤ := if stuffing0 < 4 ∧ cfg.is_mpeg4 then 4 else stuffing0
      (stuffing, bi3 - 8 * (stuffing : ℚ))
    else (0, bi3)
  else (0, buffer_index)

/-- A VBV configuration with a one-bit buffer and a large minimum rate,
used to refute the unrestricted buffer-range claim. -/
def vbvTinyCfg : RcConfig :=
  { i_quant_factor := 0, i_quant_offset := 0, b_quant_factor := 0,
    b_quant_offset := 0, max_qdiff := 3, lmin := 118, lmax := 3658,
    rc_buffer_size := 1, rc_min_rate := 20, rc_max_rate := 20, fps := 1,
    rc_qmod_freq := 0, rc_qmod_amp := 0, rc_buffer_aggressivity := 1,
    rc_qsquish := 0, rc_min_vbv_overflow_use := 1/3,
    rc_max_available_vbv_use := 1/3, bit_rate := 100,
    bit_rate_tolerance := 8000, qblur := 1/2, max_b_frames := 0,
    mb_num := 100, pass2 := false, is_mpeg4 := false, overrides := [] }

/-- A sane VBV configuration used as the witness input for the amended C1
theorem. -/
def vbvSaneCfg : RcConfig :=
  { vbvTinyCfg with
    rc_buffer_size := 1000, rc_min_rate := 100, rc_max_rate := 200 }

/-- The VBV configuration of the C8 scenario: buffer_size = 1000 and both
rate bounds zero. -/
def vbvZeroRateCfg : RcConfig :=
  { vbvTinyCfg with
    rc_buffer_size := 1000, rc_min_rate := 0, rc_max_rate := 0 }

/-- Function get_diff_limited_q from ratecontrol.c: chains the quantizer
across picture types via the I/B factors, clamps the candidate against the
same type's previous qscale by the maxdiff bound, and updates the
last-qscale history and the last-non-B tracking. -/
def get_diff_limited_q (cfg : RcConfig) (st : RateControlState)
    (rce : RateControlEntry) (q0 : ℚ) : ℚ × RateControlState :=
  let pict_type := rce.new_pict_type
  let last_p_q := st.last_qscale_for AV_PICTURE_TYPE_P
  let last_non_b_q := st.last_qscale_for st.last_non_b_pict_type
  let q1 :=
    if pict_type = AV_PICTURE_TYPE_I ∧
        (0 < cfg.i_quant_factor ∨ st.last_non_b_pict_type = AV_PICTURE_TYPE_P) then
      last_p_q * |cfg.i_quant_factor| + cfg.i_quant_offset
    else if pict_type = AV_PICTURE_TYPE_B ∧ 0 < cfg.b_quant_factor then
      last_non_b_q * cfg.b_quant_factor + cfg.b_quant_offset
    else q0
  let q2 := if q1 < 1 then 1 else q1
  let q3 :=
    if st.last_non_b_pict_type = pict_type ∨ pict_type ≠ AV_PICTURE_TYPE_I then
      let last_q := st.last_qscale_for pict_type
      let maxdiff : ℤ := FF_QP2LAMBDA * cfg.max_qdiff
      if q2 > last_q + (maxdiff : ℚ) then last_q + (maxdiff : ℚ)
      else if q2 < last_q - (maxdiff : ℚ) then last_q - (maxdiff : ℚ)
      else q2
    else q2
  let st1 := { st with
    last_qscale_for := fun t => if t = pict_type then q3 else st.last_qscale_for t }
  let st2 := if pict_type ≠ AV_PICTURE_TYPE_B then
      { st1 with last_non_b_pict_type := pict_type }
    else st1
  (q3, st2)

/-- State of the rate controller right after ff_rate_control_init: the
predictors start at coeff = 7*FF_QP2LAMBDA, count 1, decay 0.4; all sums
and counts at 1; last_qscale_for at 5*FF_QP2LAMBDA.  The last_non_b
picture type starts at P here (the zero-initialized C context holds 0; any
value works for the theorems below). -/
def rcInitialState : RateControlState :=
  { buffer_index := 0,
    pred := fun _ => { coeff := 118 * 7, count := 1, decay := 2/5 },
    short_term_qsum := 1/1000, short_term_qcount := 1/1000,
    pass1_rc_eq_output_sum := 1/1000, pass1_wanted_bits := 1/1000,
    last_qscale := 0,
    last_qscale_for := fun _ => 118 * 5,
    last_mc_mb_var_sum := 0, last_mb_var_sum := 0,
    i_cplx_sum := fun _ => 1, p_cplx_sum := fun _ => 1,
    mv_bits_sum := fun _ => 1, qscale_sum := fun _ => 1,
    frame_count := fun _ => 1,
    last_non_b_pict_type := AV_PICTURE_TYPE_P,
    entry := [] }

/-- A P-type statistics entry used in concrete runs. -/
def sampleEntryP : RateControlEntry :=
  { pict_type := 2, qscale := 236, mv_bits := 50, i_tex_bits := 0,
    p_tex_bits := 4000, misc_bits := 10, header_bits := 0,
    expected_bits := 0, new_pict_type := 2, new_qscale := 0,
    mc_mb_var_sum := 5000, mb_var_sum := 6000, i_count := 0,
    skip_count := 0, f_code := 1, b_code := 1 }

/-- A configuration with a negative max_qdiff, legal at the option level
but breaking the diff-limiter bound. -/
def negQdiffCfg : RcConfig := { vbvTinyCfg with max_qdiff := -1 }

/-- The convergence loop of init_pass2:
`for (step = 256*256; step > 0.0000001; step *= 0.5)` with an arbitrary
loop body (the body receives the current step, as `rate_factor += step`
does), embedded with fuel; `none` means the fuel ran out before the exit
condition was reached, and the returned counter is the number of body
executions.  The double constant 0.0000001 rounds to a value strictly
between 2^-24 and 2^-23, as does the rational 1/10000000, so comparisons
against the power-of-two step values agree with the C code. -/
def convLoopGo {σ : Type} (body : ℚ → σ → σ) : ℕ → ℚ → σ → ℕ → Option (σ × ℕ)
  | 0, step, s, c => if step > 1/10000000 then none else some (s, c)
  | fuel+1, step, s, c =>
      if step > 1/10000000 then convLoopGo body fuel (step * (1/2)) (body step s) (c+1)
      else some (s, c)

/-- The step value at the start of iteration k of the convergence loop. -/
def stepAt (k : ℕ) : ℚ := 65536 * (1/2)^k

/-- n-fold application of the loop body starting at iteration k. -/
def convIterFrom {σ : Type} (body : ℚ → σ → σ) : ℕ → ℕ → σ → σ
  | _, 0, s => s
  | k, n+1, s => convIterFrom body (k+1) n (body (stepAt k) s)

/-- Loop-carried state of the init_pass2 convergence search: the global
rate factor, the count of "too big" backoffs, the expected bits of the
last trial, and the abstract inner state (entries, qscale arrays, buffer
index, last-qscale history) threaded through the per-trial computation. -/
structure Pass2Loop (σ : Type) where
  rate_factor : ℚ
  toobig : ℕ
  expected_bits : ℚ
  inner : σ

/-- One iteration of the init_pass2 loop body: `rate_factor += step`, run
the per-trial computation (qscale pass, reverse diff-limit pass, blur
pass, expected-bits pass — abstracted as `compute`), and if the expected
bits exceed the budget, back the step off and count it as too big. -/
def pass2Iter {σ : Type} (allAvail : ℤ) (compute : ℚ → σ → σ × ℚ)
    (step : ℚ) (L : Pass2Loop σ) : Pass2Loop σ :=
  let rf := L.rate_factor + step
  let r := compute rf L.inner
  if r.2 > (allAvail : ℚ) then
    { rate_factor := rf - step, toobig := L.toobig + 1, expected_bits := r.2, inner := r.1 }
  else
    { rate_factor := rf, toobig := L.toobig, expected_bits := r.2, inner := r.1 }

/-- The per-type constant-bits array of init_pass2:
`const_bits[rce->new_pict_type] += rce->mv_bits + rce->misc_bits` (the
new_pict_type has just been set to pict_type). -/
def const_bits_arr (entries : List RateControlEntry) : ℕ → ℤ :=
  entries.foldl
    (fun acc rce t =>
      if t = rce.pict_type then acc t + (rce.mv_bits + rce.misc_bits) else acc t)
    (fun _ => 0)

/-- Total constant bits of the I, P and B entries, as summed by
init_pass2. -/
def all_const_bits (entries : List RateControlEntry) : ℤ :=
  const_bits_arr entries AV_PICTURE_TYPE_I +
  const_bits_arr entries AV_PICTURE_TYPE_P +
  const_bits_arr entries AV_PICTURE_TYPE_B

/-- Control and error structure of init_pass2 (ratecontrol.c lines
355-507), with the numeric per-trial computation abstracted as `compute`
(the theorems quantify over it) and allocations assumed to succeed.
Returns the C return code together with the final loop state.  The
else-if chain after the loop follows the source: a zero backoff count
only logs, 40 backoffs是 fatal, and otherwise the 1% tolerance check
runs. -/
def init_pass2 {σ : Type} (entries : List RateControlEntry)
    (all_available_bits : ℤ) (compute : ℚ → σ → σ × ℚ) (s0 : σ) :
    ℤ × Pass2Loop σ :=
  let start : Pass2Loop σ := ⟨0, 0, 0, s0⟩
  if all_available_bits < all_const_bits entries then (-1, start)
  else
    let L := ((convLoopGo (pass2Iter all_available_bits compute) 100
                (256 * 256) start 0).getD (start, 0)).1
    if L.toobig = 0 then (0, L)
    else if L.toobig = 40 then (-1, L)
    else if |L.expected_bits / (all_available_bits : ℚ) - 1| > 1/100 then (-1, L)
    else (0, L)

/-- Oracle record for the transcendental library calls and the rate
equation evaluator of ratecontrol.c.  `sqrtO` stands for sqrt, `powO` for
pow, `expO` for exp, `logO` for log; `exprEval` stands for
`av_expr_eval(rcc->rc_eq_eval, const_values, rce)`, receiving the state
and entry that the const_values vector and the bits2qp/qp2bits callbacks
are built from, with `none` modelling a NaN result.  Theorems quantify
over every oracle, so each real execution is an instance. -/
structure MathOracle where
  sqrtO : ℚ → ℚ
  powO : ℚ → ℚ → ℚ
  expO : ℚ → ℚ
  logO : ℚ → ℚ
  exprEval : RateControlState → RateControlEntry → Option ℚ

/-- Function get_qscale from ratecontrol.c: evaluate the rate equation
(NaN is a -1 error), accumulate pass1_rc_eq_output_sum, scale by the rate
factor, floor at 0 and add 1, apply the overrides in list order, convert
to a quantizer via bits2qp, apply the negative I/B factor policy, and
floor at 1.  The deprecated avctx-side override list is the same loop on
a second list and is represented by the same single list. -/
def get_qscale (cfg : RcConfig) (M : MathOracle) (st : RateControlState)
    (rce : RateControlEntry) (rate_factor : ℚ) (frame_num : ℤ) :
    ℚ × RateControlState :=
  match M.exprEval st rce with
  | none => (-1, st)
  | some bits0 =>
    let st1 := { st with
      pass1_rc_eq_output_sum := st.pass1_rc_eq_output_sum + bits0 }
    let bits1 := bits0 * rate_factor
    let bits2 := if bits1 < 0 then 0 else bits1
    let bits3 := bits2 + 1
    let bits4 := cfg.overrides.foldl
      (fun b o =>
        if o.start_frame > frame_num then b
        else if o.end_frame < frame_num then b
        else if o.qscale ≠ 0 then qp2bits rce (o.qscale : ℚ)
        else b * o.quality_factor)
      bits3
    let q0 := bits2qp rce bits4
    let q1 :=
      if rce.new_pict_type = AV_PICTURE_TYPE_I ∧ cfg.i_quant_factor < 0 then
        -q0 * cfg.i_quant_factor + cfg.i_quant_offset
      else if rce.new_pict_type = AV_PICTURE_TYPE_B ∧ cfg.b_quant_factor < 0 then
        -q0 * cfg.b_quant_factor + cfg.b_quant_offset
      else q0
    let q2 := if q1 < 1 then 1 else q1
    (q2, st1)

/-- Function modify_qscale from ratecontrol.c: periodic P-frame
modulation, VBV overflow/underflow protection scaling and limits, then
either a hard clamp to [qmin, qmax] or the logistic squish soft clamp in
log space.  Reads the buffer index; writes no state. -/
def modify_qscale (cfg : RcConfig) (M : MathOracle) (st : RateControlState)
    (rce : RateControlEntry) (q0 : ℚ) (frame_num : ℤ) : ℚ :=
  let buffer_size : ℚ := (cfg.rc_buffer_size : ℚ)
  let min_rate := cfg.rc_min_rate / cfg.fps
  let max_rate := cfg.rc_max_rate / cfg.fps
  let pict_type := rce.new_pict_type
  let qminmax := get_qminmax cfg pict_type
  let qmin := qminmax.1
  let qmax := qminmax.2
  let q1 :=
    if cfg.rc_qmod_freq ≠ 0 ∧ frame_num % cfg.rc_qmod_freq = 0 ∧
        pict_type = AV_PICTURE_TYPE_P then
      q0 * cfg.rc_qmod_amp
    else q0
  let q2 :=
    if buffer_size ≠ 0 then
      let expected_size := st.buffer_index
      let qa :=
        if min_rate ≠ 0 then
          let d0 := 2 * (buffer_size - expected_size) / buffer_size
          let d := if d0 > 1 then 1 else if d0 < 1/10000 then 1/10000 else d0
          let qm := q1 * M.powO d (1 / cfg.rc_buffer_aggressivity)
          let q_limit := bits2qp rce
            (max ((min_rate - buffer_size + st.buffer_index) *
              cfg.rc_min_vbv_overflow_use) 1)
          if qm > q_limit then q_limit else qm
        else q1
      let qb :=
        if max_rate ≠ 0 then
          let d0 := 2 * expected_size / buffer_size
          let d := if d0 > 1 then 1 else if d0 < 1/10000 then 1/10000 else d0
          let qm := qa / M.powO d (1 / cfg.rc_buffer_aggressivity)
          let q_limit := bits2qp rce
            (max (st.buffer_index * cfg.rc_max_available_vbv_use) 1)
          if qm < q_limit then q_limit else qm
        else qa
      qb
    else q1
  if cfg.rc_qsquish = 0 ∨ qmin = qmax then
    if q2 < (qmin : ℚ) then (qmin : ℚ)
    else if q2 > (qmax : ℚ) then (qmax : ℚ)
    else q2
  else
    let min2 := M.logO (qmin : ℚ)
    let max2 := M.logO (qmax : ℚ)
    let lq := M.logO q2
    let lq1 := (lq - min2) / (max2 - min2) - 1/2
    let lq2 := lq1 * (-4)
    let lq3 := 1 / (1 + M.expO lq2)
    let lq4 := lq3 * (max2 - min2) + min2
    M.expO lq4

/-- Per-call inputs of ff_rate_estimate_qscale that come from the encoder
(MpegEncContext and Picture): picture type, variance sums, previous
actual frame bits, total bits so far, motion codes, the dts picture's
timestamp (none models a missing picture or AV_NOPTS_VALUE), the previous
picture type argument, and the intra-only / adaptive-quant flags. -/
structure EncFrameInfo where
  pict_type : ℕ
  mb_var_sum : ℤ
  mc_mb_var_sum : ℤ
  frame_bits : ℚ
  total_bits : ℚ
  f_code : ℤ
  b_code : ℤ
  dts_pts : Option ℚ
  last_pict_type : ℕ
  intra_only : Bool
  adaptive_quant : Bool

/-- Common suffix of ff_rate_estimate_qscale (lines 1026-1041): clamp to
[qmin, qmax], round to an integer quantizer unless adaptive quantization
takes over (adaptive_quantization writes only the encoder's lambda table,
no RateControlContext field), and store last_qscale and the variance sums
unless this is a dry run. -/
def rate_estimate_tail (fi : EncFrameInfo) (dry_run : Bool)
    (qmin qmax : ℤ) (q : ℚ) (st : RateControlState) : ℚ × RateControlState :=
  let q1 := if q < (qmin : ℚ) then (qmin : ℚ)
    else if q > (qmax : ℚ) then (qmax : ℚ) else q
  let q2 := if fi.adaptive_quant then q1 else ((ratTrunc (q1 + 1/2) : ℤ) : ℚ)
  let stF := if dry_run = false then
      { st with
        last_qscale := q2, last_mc_mb_var_sum := fi.mc_mb_var_sum,
        last_mb_var_sum := fi.mb_var_sum }
    else st
  (q2, stF)

/-- Function ff_rate_estimate_qscale from ratecontrol.c.  The two-pass
branch reads the precomputed entry; the single-pass branch builds a local
entry from the predictor, accumulates the per-type complexity sums and
frame count, runs get_qscale, the diff limiter, the short-term leaky
average and modify_qscale, and accumulates pass1_wanted_bits.  A negative
get_qscale propagates the -1 sentinel.  The predictor update and the
final stores are suppressed on a dry run. -/
def ff_rate_estimate_qscale (cfg : RcConfig) (M : MathOracle)
    (st : RateControlState) (fi : EncFrameInfo) (picture_number : ℤ)
    (dry_run : Bool) : ℚ × RateControlState :=
  let pict_type := fi.pict_type
  let qminmax := get_qminmax cfg pict_type
  let qmin := qminmax.1
  let qmax := qminmax.2
  let fps := cfg.fps
  let st1 :=
    if picture_number > 2 ∧ dry_run = false then
      let last_var := if fi.last_pict_type = AV_PICTURE_TYPE_I
        then st.last_mb_var_sum else st.last_mc_mb_var_sum
      { st with
        pred := fun t =>
          if t = fi.last_pict_type then
            update_predictor (st.pred fi.last_pict_type) st.last_qscale (M.sqrtO (last_var : ℚ)) fi.frame_bits
          else st.pred t }
    else st
  if cfg.pass2 then
    let rce := st1.entry.getD picture_number.toNat default
    let wanted_bits : ℚ := (rce.expected_bits : ℚ)
    let diff := fi.total_bits - wanted_bits
    let br0 := (cfg.bit_rate_tolerance - diff) / cfg.bit_rate_tolerance
    let br := if br0 ≤ 0 then 1/1000 else br0
    let q := rce.new_qscale / br
    rate_estimate_tail fi dry_run qmin qmax q st1
  else
    let wanted_bits : ℚ :=
      match fi.dts_pts with
      | none => ((ratTrunc (cfg.bit_rate * (picture_number : ℚ) / fps) : ℤ) : ℚ)
      | some pts => ((ratTrunc (cfg.bit_rate * pts / fps) : ℤ) : ℚ)
    let diff := fi.total_bits - wanted_bits
    let br0 := (cfg.bit_rate_tolerance - diff) / cfg.bit_rate_tolerance
    let br := if br0 ≤ 0 then 1/1000 else br0
    let var : ℤ := if pict_type = AV_PICTURE_TYPE_I then fi.mb_var_sum
      else fi.mc_mb_var_sum
    let bits := predict_size (st1.pred pict_type) (118 * 2 : ℚ)
      (M.sqrtO (var : ℚ))
    let texmv : ℤ × ℤ × ℤ :=
      if pict_type = AV_PICTURE_TYPE_I then (ratTrunc bits, 0, 0)
      else (0, ratTrunc (bits * (9/10)), ratTrunc (bits * (1/10)))
    let rce : RateControlEntry :=
      { pict_type := pict_type, new_pict_type := pict_type,
        mc_mb_var_sum := fi.mc_mb_var_sum, mb_var_sum := fi.mb_var_sum,
        qscale := 118 * 2, f_code := fi.f_code, b_code := fi.b_code,
        misc_bits := 1,
        i_count := if pict_type = AV_PICTURE_TYPE_I then cfg.mb_num else 0,
        i_tex_bits := texmv.1, p_tex_bits := texmv.2.1, mv_bits := texmv.2.2,
        header_bits := 0, expected_bits := 0, new_qscale := 0, skip_count := 0 }
    let st2 := { st1 with
      i_cplx_sum := fun t => if t = pict_type then
          st1.i_cplx_sum t + (rce.i_tex_bits : ℚ) * rce.qscale
        else st1.i_cplx_sum t,
      p_cplx_sum := fun t => if t = pict_type then
          st1.p_cplx_sum t + (rce.p_tex_bits : ℚ) * rce.qscale
        else st1.p_cplx_sum t,
      mv_bits_sum := fun t => if t = pict_type then
          st1.mv_bits_sum t + (rce.mv_bits : ℚ)
        else st1.mv_bits_sum t,
      frame_count := fun t => if t = pict_type then st1.frame_count t + 1
        else st1.frame_count t }
    let rate_factor := st2.pass1_wanted_bits / st2.pass1_rc_eq_output_sum * br
    let gq := get_qscale cfg M st2 rce rate_factor picture_number
    if gq.1 < 0 then (-1, gq.2)
    else
      let dl := get_diff_limited_q cfg gq.2 rce gq.1
      let stq : ℚ × RateControlState :=
        if pict_type = AV_PICTURE_TYPE_P ∨ fi.intra_only then
          let qsum := dl.2.short_term_qsum * cfg.qblur + dl.1
          let qcount := dl.2.short_term_qcount * cfg.qblur + 1
          (qsum / qcount,
           { dl.2 with short_term_qsum := qsum, short_term_qcount := qcount })
        else dl
      let q3 := modify_qscale cfg M stq.2 rce stq.1 picture_number
      let st6 := { stq.2 with
        pass1_wanted_bits := stq.2.pass1_wanted_bits + cfg.bit_rate / fps }
      rate_estimate_tail fi dry_run qmin qmax q3 st6

/-- Control and error structure of ff_rate_control_init (ratecontrol.c
lines 509-699): the rate-equation parse (abstracted as a success flag),
then in two-pass mode the stats-entry count (semicolon count plus
max_b_frames), the stats-line parse and init_pass2 (both abstracted as
success flags), and only in non-two-pass mode the qblur check and the
initial-complexity warmup loop (which has no early exit; its get_qscale
results are discarded).  The INT_MAX/sizeof bound on the entry count is
elided (machine-dependent size).  Returns 0 on success, -1 on failure. -/
def ff_rate_control_init (cfg : RcConfig) (expr_parse_ok : Bool)
    (num_stats_frames : ℤ) (stats_ok : Bool) (pass2_init_ok : Bool) : ℤ :=
  if expr_parse_ok = false then -1
  else if cfg.pass2 then
    let n := num_stats_frames + cfg.max_b_frames
    if n ≤ 0 then -1
    else if stats_ok = false then -1
    else if pass2_init_ok = false then -1
    else 0
  else
    if cfg.qblur > 1 then -1
    else 0

/-- A simple concrete oracle for counterexample runs. -/
def plainOracle : MathOracle :=
  { sqrtO := fun x => x, powO := fun x _ => x, expO := fun x => x,
    logO := fun x => x, exprEval := fun _ _ => some 100 }

/-- Concrete per-frame encoder inputs for counterexample runs: a P frame
with moderate variance. -/
def sampleFrameInfo : EncFrameInfo :=
  { pict_type := 2, mb_var_sum := 6000, mc_mb_var_sum := 5000,
    frame_bits := 1000, total_bits := 10000, f_code := 1, b_code := 1,
    dts_pts := none, last_pict_type := 2, intra_only := false,
    adaptive_quant := false }

/-- A two-pass configuration with qblur above 1, on which
ff_rate_control_init does not abort. -/
def pass2QblurCfg : RcConfig := { vbvTinyCfg with pass2 := true, qblur := 2 }

/-- A two-pass configuration for the C10 witness run. -/
def pass2WitnessCfg : RcConfig := { vbvTinyCfg with pass2 := true }

/-- A precomputed entry with new_qscale 300 for the C10 witness run. -/
def pass2WitnessEntry : RateControlEntry :=
  { sampleEntryP with new_qscale := 300, expected_bits := 10000 }

/-- State holding the single precomputed entry for the C10 witness run. -/
def pass2WitnessState : RateControlState :=
  { rcInitialState with entry := [pass2WitnessEntry] }

/-- Basic range fact about av_clip used throughout. -/
theorem av_clip_mem (a amin amax : ℤ) (h : amin ≤ amax) :
    amin ≤ av_clip a amin amax ∧ av_clip a amin amax ≤ amax := by
  unfold av_clip
  split
  · exact ⟨le_refl _, h⟩
  · split
    · exact ⟨h, le_refl _⟩
    · omega

/-- Shared range fact about get_qminmax: the returned pair always satisfies
1 ≤ qmin ≤ qmax ≤ FF_LAMBDA_MAX, for every configuration. -/
theorem get_qminmax_bounds (cfg : RcConfig) (pict_type : ℕ) :
    1 ≤ (get_qminmax cfg pict_type).1 ∧
    (get_qminmax cfg pict_type).1 ≤ (get_qminmax cfg pict_type).2 ∧
    (get_qminmax cfg pict_type).2 ≤ FF_LAMBDA_MAX := by
  unfold get_qminmax
  have hle : (1 : ℤ) ≤ FF_LAMBDA_MAX := by unfold FF_LAMBDA_MAX; omega
  set s := (if pict_type = AV_PICTURE_TYPE_B then
      (ratTrunc ((cfg.lmin : ℚ) * |cfg.b_quant_factor| + cfg.b_quant_offset + 1/2),
       ratTrunc ((cfg.lmax : ℚ) * |cfg.b_quant_factor| + cfg.b_quant_offset + 1/2))
    else if pict_type = AV_PICTURE_TYPE_I then
      (ratTrunc ((cfg.lmin : ℚ) * |cfg.i_quant_factor| + cfg.i_quant_offset + 1/2),
       ratTrunc ((cfg.lmax : ℚ) * |cfg.i_quant_factor| + cfg.i_quant_offset + 1/2))
    else (cfg.lmin, cfg.lmax)) with hs
  have h1 := av_clip_mem s.1 1 FF_LAMBDA_MAX hle
  have h2 := av_clip_mem s.2 1 FF_LAMBDA_MAX hle
  dsimp only
  constructor
  · exact h1.1
  constructor
  · split
    · exact le_refl _
    · omega
  · split
    · exact h1.2
    · exact h2.2

/-- C5: for every entry and every qscale q ≥ 1, `bits2qp` inverts `qp2bits`
exactly in rational arithmetic, provided `qscale * (i_tex_bits + p_tex_bits + 1)`
is nonzero. -/
theorem bits2qp_qp2bits_roundtrip (rce : RateControlEntry) (q : ℚ)
    (hq : 1 ≤ q)
    (hT : rce.qscale * ((rce.i_tex_bits : ℚ) + (rce.p_tex_bits : ℚ) + 1) ≠ 0) :
    bits2qp rce (qp2bits rce q) = q := by
  have hq0 : q ≠ 0 := by
    intro h
    rw [h] at hq
    norm_num at hq
  unfold bits2qp qp2bits
  field_simp

/-- Witness for C5 at a concrete entry and q = 5. -/
theorem bits2qp_qp2bits_roundtrip_witness :
    let rce : RateControlEntry :=
      { pict_type := 2, qscale := 236, mv_bits := 50, i_tex_bits := 300,
        p_tex_bits := 400, misc_bits := 10, header_bits := 0,
        expected_bits := 0, new_pict_type := 2, new_qscale := 0,
        mc_mb_var_sum := 0, mb_var_sum := 0, i_count := 0, skip_count := 0,
        f_code := 1, b_code := 1 }
    (1 : ℚ) ≤ 5 ∧
    rce.qscale * ((rce.i_tex_bits : ℚ) + (rce.p_tex_bits : ℚ) + 1) ≠ 0 ∧
    bits2qp rce (qp2bits rce 5) = 5 := by
  refine ⟨by norm_num, by norm_num, ?_⟩
  exact bits2qp_qp2bits_roundtrip _ 5 (by norm_num) (by norm_num)

/-- C6: get_qminmax returns qmin ≤ qmax with both values clamped into
[1, FF_LAMBDA_MAX], for any configuration inputs (any quant factors and
offsets, any lmin/lmax) and any picture type; when the scaling inverts the
range, qmax is raised to qmin (the last step of the definition). -/
theorem get_qminmax_ordered (cfg : RcConfig) (pict_type : ℕ) :
    1 ≤ (get_qminmax cfg pict_type).1 ∧
    (get_qminmax cfg pict_type).1 ≤ (get_qminmax cfg pict_type).2 ∧
    1 ≤ (get_qminmax cfg pict_type).2 ∧
    (get_qminmax cfg pict_type).1 ≤ FF_LAMBDA_MAX ∧
    (get_qminmax cfg pict_type).2 ≤ FF_LAMBDA_MAX := by
  have h := get_qminmax_bounds cfg pict_type
  exact ⟨h.1, h.2.1, le_trans h.1 h.2.1, le_trans h.2.1 h.2.2, h.2.2⟩

/-- Truncation of a nonnegative rational is nonnegative. -/
theorem ratTrunc_nonneg {x : ℚ} (h : 0 ≤ x) : 0 ≤ ratTrunc x := by
  unfold ratTrunc
  rw [if_pos h]
  exact Int.le_floor.2 (by exact_mod_cast h)

/-- The av_clip of anything between nonnegative bounds is nonnegative. -/
theorem av_clip_nonneg {a amin amax : ℤ} (h1 : 0 ≤ amin) (h2 : 0 ≤ amax) :
    0 ≤ av_clip a amin amax := by
  unfold av_clip
  split
  · exact h1
  · split
    · exact h2
    · omega

/-- Core range fact about the stuffing step of ff_vbv_update: if the
refilled occupancy `E` is nonnegative and the buffer holds at least 8 bits
(32 for MPEG4, whose stuffing is forced up to 4 bytes), then removing the
stuffing bits puts the occupancy into [0, B]. -/
theorem vbv_step_range (B E : ℚ) (m4 : Bool) (hE : 0 ≤ E)
    (hB : (if m4 then (32:ℚ) else 8) ≤ B) :
    0 ≤ (if E > B then
          E - 8 * (((if (⌈(E - B)/8⌉ : ℤ) < 4 ∧ m4 then (4:ℤ) else ⌈(E - B)/8⌉) : ℤ) : ℚ)
        else E) ∧
    (if E > B then
          E - 8 * (((if (⌈(E - B)/8⌉ : ℤ) < 4 ∧ m4 then (4:ℤ) else ⌈(E - B)/8⌉) : ℤ) : ℚ)
        else E) ≤ B := by
  have hB8 : (8:ℚ) ≤ B := by
    by_cases hm : m4 <;> simp [hm] at hB <;> linarith
  have hlb := Int.le_ceil ((E - B)/8)
  have hlt := Int.ceil_lt_add_one ((E - B)/8)
  split_ifs with h1 h2
  · have hm := h2.2
    rw [hm] at hB
    simp at hB
    have h3' : (⌈(E - B)/8⌉ : ℤ) ≤ 3 := by omega
    have h3 : ((⌈(E - B)/8⌉ : ℤ) : ℚ) ≤ 3 := by exact_mod_cast h3'
    constructor
    · push_cast
      nlinarith
    · push_cast
      nlinarith
  · constructor
    · nlinarith
    · nlinarith
  · exact ⟨hE, le_of_not_lt h1⟩

/-- C1 counterexample: with rc_buffer_size = 1, min_rate = max_rate = 20
and a non-MPEG4 codec, a call with frame_size = 0 from buffer_index = 0
refills to 20, then subtracts 8 * ceil(19/8) = 24 stuffing bits and
returns with buffer_index = -4, outside [0, rc_buffer_size]. -/
theorem ff_vbv_update_leaves_range_counterexample :
    (ff_vbv_update vbvTinyCfg 0 0).2 < 0 := by
  have hc : (⌈(19:ℚ)/8⌉ : ℤ) = 3 := by
    rw [Int.ceil_eq_iff] <;> norm_num
  have h : ff_vbv_update vbvTinyCfg 0 0 = (3, -4) := by
    norm_num [ff_vbv_update, vbvTinyCfg, av_clip, ratTrunc, hc]
  rw [h]
  norm_num

/-- C1 amended: ff_vbv_update leaves buffer_index within
[0, rc_buffer_size] for every prior occupancy and every frame_size,
provided the per-frame rate bounds are nonnegative and the buffer holds at
least one stuffing quantum (8 bits; 32 bits for MPEG4, whose stuffing is
forced up to 4 bytes).  Transient underflow is clamped to 0 and transient
overflow is removed by the returned stuffing bits.  Without the buffer
size floor, the final stuffing subtraction can overshoot below 0. -/
theorem ff_vbv_update_buffer_range (cfg : RcConfig) (bi : ℚ) (fs : ℤ)
    (hmin : 0 ≤ cfg.rc_min_rate / cfg.fps)
    (hmax : 0 ≤ cfg.rc_max_rate / cfg.fps)
    (hbs : (if cfg.is_mpeg4 then 32 else 8) ≤ cfg.rc_buffer_size) :
    0 ≤ (ff_vbv_update cfg bi fs).2 ∧
    (ff_vbv_update cfg bi fs).2 ≤ (cfg.rc_buffer_size : ℚ) := by
  have hbs8 : (8 : ℤ) ≤ cfg.rc_buffer_size := by
    by_cases hm : cfg.is_mpeg4
    · rw [if_pos hm] at hbs
      omega
    · rw [if_neg hm] at hbs
      omega
  have hne : cfg.rc_buffer_size ≠ 0 := by omega
  have hclip : ∀ y : ℚ, (0:ℚ) ≤
      ((av_clip (ratTrunc ((cfg.rc_buffer_size : ℚ) - y - 1))
        (ratTrunc (cfg.rc_min_rate / cfg.fps)) (ratTrunc (cfg.rc_max_rate / cfg.fps)) : ℤ) : ℚ) := by
    intro y
    exact_mod_cast av_clip_nonneg (ratTrunc_nonneg hmin) (ratTrunc_nonneg hmax)
  have hbi2 : (0:ℚ) ≤ (if bi - (fs:ℚ) < 0 then 0 else bi - (fs:ℚ)) := by
    split
    · exact le_refl 0
    · linarith [not_lt.1 (by assumption : ¬(bi - (fs : ℚ) < 0))]
  have hBQ : (if cfg.is_mpeg4 then (32:ℚ) else 8) ≤ (cfg.rc_buffer_size : ℚ) := by
    by_cases hm : cfg.is_mpeg4
    · rw [if_pos hm] at hbs ⊢
      exact_mod_cast hbs
    · rw [if_neg hm] at hbs ⊢
      exact_mod_cast hbs
  unfold ff_vbv_update
  rw [if_pos hne]
  dsimp only
  rw [apply_ite Prod.snd]
  dsimp only
  exact vbv_step_range (cfg.rc_buffer_size : ℚ)
    ((if bi - (fs:ℚ) < 0 then 0 else bi - (fs:ℚ)) +
      ((av_clip (ratTrunc ((cfg.rc_buffer_size : ℚ) - (if bi - (fs:ℚ) < 0 then 0 else bi - (fs:ℚ)) - 1))
        (ratTrunc (cfg.rc_min_rate / cfg.fps)) (ratTrunc (cfg.rc_max_rate / cfg.fps)) : ℤ) : ℚ))
    cfg.is_mpeg4 (add_nonneg hbi2 (hclip _)) hBQ

/-- Witness for the amended C1 theorem at a concrete configuration. -/
theorem ff_vbv_update_buffer_range_witness :
    (0 ≤ vbvSaneCfg.rc_min_rate / vbvSaneCfg.fps) ∧
    (0 ≤ vbvSaneCfg.rc_max_rate / vbvSaneCfg.fps) ∧
    ((if vbvSaneCfg.is_mpeg4 then 32 else 8) ≤ vbvSaneCfg.rc_buffer_size) ∧
    (0 ≤ (ff_vbv_update vbvSaneCfg 500 600).2 ∧
     (ff_vbv_update vbvSaneCfg 500 600).2 ≤ (vbvSaneCfg.rc_buffer_size : ℚ)) := by
  refine ⟨by norm_num [vbvSaneCfg, vbvTinyCfg], by norm_num [vbvSaneCfg, vbvTinyCfg],
    by norm_num [vbvSaneCfg, vbvTinyCfg], ?_⟩
  exact ff_vbv_update_buffer_range vbvSaneCfg 500 600
    (by norm_num [vbvSaneCfg, vbvTinyCfg]) (by norm_num [vbvSaneCfg, vbvTinyCfg])
    (by norm_num [vbvSaneCfg, vbvTinyCfg])

/-- C8 counterexample: with buffer_size = 1000 and min_rate = max_rate = 0,
ff_vbv_update is not a no-op: the `if (buffer_size)` gate is entered
(buffer_size is nonzero, regardless of the rate bounds) and buffer_index
is still decremented by frame_size, here from 500 to 400. -/
theorem ff_vbv_update_noop_counterexample :
    (ff_vbv_update vbvZeroRateCfg 500 100).2 ≠ 500 := by
  have h : ff_vbv_update vbvZeroRateCfg 500 100 = (0, 400) := by
    norm_num [ff_vbv_update, vbvZeroRateCfg, vbvTinyCfg, av_clip, ratTrunc]
  rw [h]
  norm_num

/-- The av_clip of anything between zero bounds is zero. -/
theorem av_clip_zero (a : ℤ) : av_clip a 0 0 = 0 := by
  unfold av_clip
  split
  · rfl
  · split
    · rfl
    · omega

/-- C8 amended: with buffer_size = 1000 and min_rate = max_rate = 0, the
refill step adds zero bits, so for any prior buffer_index in
[0, buffer_size] and any nonnegative frame_size the call returns 0
stuffing bytes — but it is not a no-op: buffer_index is still decremented
by frame_size (clamped at 0), because the `if (buffer_size)` gate tests
the buffer size, which is nonzero, not the rate bounds. -/
theorem ff_vbv_update_zero_rates (bi : ℚ) (fs : ℤ)
    (h0 : 0 ≤ bi) (h1 : bi ≤ 1000) (hfs : 0 ≤ fs) :
    ff_vbv_update vbvZeroRateCfg bi fs =
      (0, if bi - (fs : ℚ) < 0 then 0 else bi - (fs : ℚ)) := by
  have hfsQ : (0 : ℚ) ≤ (fs : ℚ) := by exact_mod_cast hfs
  unfold ff_vbv_update
  rw [if_pos (by norm_num [vbvZeroRateCfg, vbvTinyCfg] : vbvZeroRateCfg.rc_buffer_size ≠ 0)]
  simp only [vbvZeroRateCfg, vbvTinyCfg]
  norm_num [ratTrunc, av_clip_zero]
  intro hcontra
  exfalso
  by_cases hc : bi < (fs:ℚ)
  · rw [if_pos hc] at hcontra
    norm_num at hcontra
  · rw [if_neg hc] at hcontra
    linarith

/-- Witness for the amended C8 theorem at buffer_index 500, frame_size 100. -/
theorem ff_vbv_update_zero_rates_witness :
    (0 : ℚ) ≤ 500 ∧ (500 : ℚ) ≤ 1000 ∧ (0 : ℤ) ≤ 100 ∧
    ff_vbv_update vbvZeroRateCfg 500 100 = (0, 400) := by
  refine ⟨by norm_num, by norm_num, by norm_num, ?_⟩
  rw [ff_vbv_update_zero_rates 500 100 (by norm_num) (by norm_num) (by norm_num)]
  norm_num

/-- C4 counterexample: with max_qdiff = -1 the claimed bound
|q2 - stored1| ≤ max_qdiff * FF_QP2LAMBDA is negative and the clamp
inverts, so two consecutive P-frame calls (stored qscale 472, then
returned qscale 354) violate it. -/
theorem get_diff_limited_q_bound_counterexample :
    ¬(|(get_diff_limited_q negQdiffCfg
          (get_diff_limited_q negQdiffCfg rcInitialState sampleEntryP 590).2
          sampleEntryP 590).1 -
        (get_diff_limited_q negQdiffCfg rcInitialState sampleEntryP 590).2.last_qscale_for
          sampleEntryP.new_pict_type| ≤
      ((FF_QP2LAMBDA * negQdiffCfg.max_qdiff : ℤ) : ℚ)) := by
  have h1 : get_diff_limited_q negQdiffCfg rcInitialState sampleEntryP 590 =
      (472, { rcInitialState with
        last_qscale_for := fun t => if t = 2 then 472 else rcInitialState.last_qscale_for t }) := by
    norm_num [get_diff_limited_q, negQdiffCfg, vbvTinyCfg, rcInitialState,
      sampleEntryP, AV_PICTURE_TYPE_I, AV_PICTURE_TYPE_P, AV_PICTURE_TYPE_B,
      FF_QP2LAMBDA, rcInitialState]
  rw [h1]
  norm_num [get_diff_limited_q, negQdiffCfg, vbvTinyCfg, rcInitialState,
    sampleEntryP, AV_PICTURE_TYPE_I, AV_PICTURE_TYPE_P, AV_PICTURE_TYPE_B,
    FF_QP2LAMBDA]

/-- The diff limiter stores its result as the last qscale of the entry's
picture type. -/
theorem get_diff_limited_q_stores (cfg : RcConfig) (st : RateControlState)
    (rce : RateControlEntry) (q0 : ℚ) :
    (get_diff_limited_q cfg st rce q0).2.last_qscale_for rce.new_pict_type =
      (get_diff_limited_q cfg st rce q0).1 := by
  unfold get_diff_limited_q
  dsimp only
  split
  · dsimp only
    simp
  · dsimp only
    simp

/-- The diff limiter sets the last-non-B type to the entry's type for
non-B entries. -/
theorem get_diff_limited_q_non_b (cfg : RcConfig) (st : RateControlState)
    (rce : RateControlEntry) (q0 : ℚ) (h : rce.new_pict_type ≠ AV_PICTURE_TYPE_B) :
    (get_diff_limited_q cfg st rce q0).2.last_non_b_pict_type = rce.new_pict_type := by
  unfold get_diff_limited_q
  dsimp only
  rw [if_pos h]

/-- When the clamp branch is active (same type as the last non-B frame, or
a non-I frame) and max_qdiff is nonnegative, one diff-limiter call moves
at most maxdiff away from the stored last qscale of that type. -/
theorem get_diff_limited_q_clamp (cfg : RcConfig) (st : RateControlState)
    (rce : RateControlEntry) (q0 : ℚ)
    (hcond : st.last_non_b_pict_type = rce.new_pict_type ∨
      rce.new_pict_type ≠ AV_PICTURE_TYPE_I)
    (hqd : 0 ≤ cfg.max_qdiff) :
    |(get_diff_limited_q cfg st rce q0).1 -
        st.last_qscale_for rce.new_pict_type| ≤
      ((FF_QP2LAMBDA * cfg.max_qdiff : ℤ) : ℚ) := by
  have hmd : (0:ℚ) ≤ ((FF_QP2LAMBDA * cfg.max_qdiff : ℤ) : ℚ) := by
    have : (0:ℤ) ≤ FF_QP2LAMBDA * cfg.max_qdiff := by
      unfold FF_QP2LAMBDA
      positivity
    exact_mod_cast this
  unfold get_diff_limited_q
  dsimp only
  rw [if_pos hcond]
  rw [abs_le]
  split_ifs <;> constructor <;> linarith

/-- C4 amended: for every configuration with a nonnegative max_qdiff, any
two consecutive diff-limiter calls on entries of the same picture type
return, for the second frame, a qscale within max_qdiff * FF_QP2LAMBDA of
the qscale stored for the first frame (the last_qscale_for of that type).
A negative max_qdiff (allowed by the option system) breaks the bound. -/
theorem get_diff_limited_q_bound (cfg : RcConfig) (st : RateControlState)
    (rce1 rce2 : RateControlEntry) (qa qb : ℚ)
    (hqd : 0 ≤ cfg.max_qdiff)
    (ht : rce1.new_pict_type = rce2.new_pict_type) :
    |(get_diff_limited_q cfg
        (get_diff_limited_q cfg st rce1 qa).2 rce2 qb).1 -
      (get_diff_limited_q cfg st rce1 qa).2.last_qscale_for
        rce2.new_pict_type| ≤
      ((FF_QP2LAMBDA * cfg.max_qdiff : ℤ) : ℚ) := by
  apply get_diff_limited_q_clamp _ _ _ _ _ hqd
  by_cases hb : rce2.new_pict_type = AV_PICTURE_TYPE_B
  · right
    rw [hb]
    unfold AV_PICTURE_TYPE_B AV_PICTURE_TYPE_I
    omega
  · left
    rw [get_diff_limited_q_non_b cfg st rce1 qa (by rw [ht]; exact hb)]
    exact ht

/-- Witness for the amended C4 theorem: two consecutive P-frame calls at a
nonnegative max_qdiff. -/
theorem get_diff_limited_q_bound_witness :
    0 ≤ vbvTinyCfg.max_qdiff ∧
    sampleEntryP.new_pict_type = sampleEntryP.new_pict_type ∧
    |(get_diff_limited_q vbvTinyCfg
        (get_diff_limited_q vbvTinyCfg rcInitialState sampleEntryP 1000).2
        sampleEntryP 1000).1 -
      (get_diff_limited_q vbvTinyCfg rcInitialState sampleEntryP 1000).2.last_qscale_for
        sampleEntryP.new_pict_type| ≤
      ((FF_QP2LAMBDA * vbvTinyCfg.max_qdiff : ℤ) : ℚ) := by
  refine ⟨by norm_num [vbvTinyCfg], rfl, ?_⟩
  exact get_diff_limited_q_bound vbvTinyCfg rcInitialState sampleEntryP
    sampleEntryP 1000 1000 (by norm_num [vbvTinyCfg]) rfl

/-- Generic unrolling of the convergence loop: if the step stays above the
threshold for n iterations and falls below at iteration n, the loop runs
exactly n body executions, for every body and every starting state. -/
theorem convLoopGo_run {σ : Type} (body : ℚ → σ → σ) :
    ∀ (n fuel k : ℕ) (s : σ) (c : ℕ),
      n ≤ fuel →
      (∀ j, j < n → (1/10000000 : ℚ) < stepAt (k+j)) →
      ¬((1/10000000 : ℚ) < stepAt (k+n)) →
      convLoopGo body fuel (stepAt k) s c = some (convIterFrom body k n s, c + n) := by
  intro n
  induction n with
  | zero =>
    intro fuel k s c _ _ hstop
    rw [Nat.add_zero] at hstop
    cases fuel <;> (unfold convLoopGo; rw [if_neg hstop]; rfl)
  | succ n ih =>
    intro fuel k s c hfuel hrun hstop
    obtain ⟨f, rfl⟩ : ∃ f, fuel = f + 1 := ⟨fuel - 1, by omega⟩
    have hgo : (1/10000000 : ℚ) < stepAt k := by
      have := hrun 0 (by omega)
      simpa using this
    unfold convLoopGo
    rw [if_pos hgo]
    have hhalf : stepAt k * (1/2) = stepAt (k+1) := by
      unfold stepAt
      ring
    rw [hhalf]
    have h1 : ∀ j, j < n → (1/10000000 : ℚ) < stepAt (k+1+j) := by
      intro j hj
      have := hrun (j+1) (by omega)
      have he : k + (j+1) = k + 1 + j := by omega
      rwa [he] at this
    have h2 : ¬((1/10000000 : ℚ) < stepAt (k+1+n)) := by
      have he : k + (n+1) = k + 1 + n := by omega
      rwa [he] at hstop
    rw [ih f (k+1) (body (stepAt k) s) (c+1) (by omega) h1 h2]
    have : c + 1 + n = c + (n + 1) := by omega
    rw [this]
    rfl

/-- Step values stay above the threshold through iteration 39. -/
theorem stepAt_lt_39 : ∀ j, j < 40 → (1/10000000 : ℚ) < stepAt j := by
  intro j hj
  have hle : stepAt 39 ≤ stepAt j := by
    unfold stepAt
    have h2 : ((1:ℚ)/2) ^ 39 ≤ ((1:ℚ)/2) ^ j :=
      pow_le_pow_of_le_one (by norm_num) (by norm_num) (by omega)
    nlinarith
  have h39 : (1/10000000 : ℚ) < stepAt 39 := by
    unfold stepAt
    norm_num
  linarith

/-- The step value falls below the threshold at iteration 40. -/
theorem stepAt_ge_40 : ¬((1/10000000 : ℚ) < stepAt 40) := by
  unfold stepAt
  norm_num

/-- Shared form of the convergence-loop result used by the init_pass2
theorems. -/
theorem conv_loop_eq {σ : Type} (body : ℚ → σ → σ) (s : σ) :
    convLoopGo body 100 (256 * 256) s 0 = some (convIterFrom body 0 40 s, 40) := by
  have h0 : (256 * 256 : ℚ) = stepAt 0 := by
    unfold stepAt
    norm_num
  rw [h0]
  have := convLoopGo_run body 40 100 0 s 0 (by omega)
    (fun j hj => by simpa using stepAt_lt_39 j hj) (by simpa using stepAt_ge_40)
  simpa using this

/-- C3: the two-pass convergence loop always terminates with a fixed
iteration count: for every loop body (hence for every stats input and
every feasible or infeasible bitrate) and every starting state, the loop
starting at step = 256*256 exits by the step condition (not by fuel) after
exactly 40 halvings, the first step value not greater than 1e-7 being
65536/2^40. -/
theorem conv_loop_terminates_fixed_count {σ : Type} (body : ℚ → σ → σ) (s : σ) :
    convLoopGo body 100 (256 * 256) s 0 = some (convIterFrom body 0 40 s, 40) :=
  conv_loop_eq body s

/-- Each init_pass2 iteration increments the backoff count by at most
one. -/
theorem pass2_toobig_le {σ : Type} (allAvail : ℤ) (compute : ℚ → σ → σ × ℚ) :
    ∀ (n k : ℕ) (L : Pass2Loop σ),
      (convIterFrom (pass2Iter allAvail compute) k n L).toobig ≤ L.toobig + n := by
  intro n
  induction n with
  | zero => intro k L; exact le_refl _
  | succ n ih =>
    intro k L
    have h1 : (pass2Iter allAvail compute (stepAt k) L).toobig ≤ L.toobig + 1 := by
      unfold pass2Iter
      dsimp only
      split <;> dsimp only <;> omega
    calc (convIterFrom (pass2Iter allAvail compute) (k+1) n
            (pass2Iter allAvail compute (stepAt k) L)).toobig
        ≤ (pass2Iter allAvail compute (stepAt k) L).toobig + n := ih (k+1) _
      _ ≤ L.toobig + (n+1) := by omega

/-- C2: assuming allocations succeed, init_pass2 fails (returns -1)
exactly when the available bits are below the summed I/P/B constant bits,
or the convergence loop counted 40 backoffs, or the backoff count is
strictly between 0 and 40 and the expected bits deviate from the
available bits by more than 1%; the backoff count never exceeds 40, and a
backoff count of 0 (with the constant-bits check passing) is never an
error. -/
theorem init_pass2_error_conditions {σ : Type} (entries : List RateControlEntry)
    (allAvail : ℤ) (compute : ℚ → σ → σ × ℚ) (s0 : σ) :
    (init_pass2 entries allAvail compute s0).2.toobig ≤ 40 ∧
    ((init_pass2 entries allAvail compute s0).1 = -1 ↔
      (allAvail < all_const_bits entries ∨
       (init_pass2 entries allAvail compute s0).2.toobig = 40 ∨
       ((init_pass2 entries allAvail compute s0).2.toobig ≠ 0 ∧
        (init_pass2 entries allAvail compute s0).2.toobig ≠ 40 ∧
        |(init_pass2 entries allAvail compute s0).2.expected_bits /
          (allAvail : ℚ) - 1| > 1/100))) ∧
    (¬(allAvail < all_const_bits entries) →
      (init_pass2 entries allAvail compute s0).2.toobig = 0 →
      (init_pass2 entries allAvail compute s0).1 = 0) := by
  unfold init_pass2
  dsimp only
  split
  · rename_i hconst
    refine ⟨by norm_num, ?_, fun hno _ => absurd hconst hno⟩
    simp [hconst]
  · rename_i hconst
    rw [conv_loop_eq]
    dsimp only [Option.getD]
    set L := convIterFrom (pass2Iter allAvail compute) 0 40
      ⟨0, 0, 0, s0⟩ with hL
    have hle : L.toobig ≤ 40 := by
      have h := pass2_toobig_le allAvail compute 40 0 ⟨0, 0, 0, s0⟩
      rw [← hL] at h
      simpa using h
    split_ifs with h0 h40 hdev
    · refine ⟨by simpa using hle, ?_, fun _ _ => by norm_num⟩
      simp [hconst, h0]
    · refine ⟨by simpa using hle, ?_, fun _ h => absurd h h0⟩
      simp [h40]
    · refine ⟨by simpa using hle, ?_, fun _ h => absurd h h0⟩
      simp only [hconst, false_or]
      constructor
      · intro _
        exact Or.inr ⟨h0, h40, hdev⟩
      · intro _
        norm_num
    · refine ⟨by simpa using hle, ?_, fun _ _ => by norm_num⟩
      constructor
      · intro h
        norm_num at h
      · intro h
        rcases h with h | h | h
        · exact absurd h hconst
        · exact absurd h h40
        · exact absurd h.2.2 hdev

/-- C7 amended: in two-pass mode a dry_run call of ff_rate_estimate_qscale
leaves every field of the rate-control state unchanged (the predictor
update and the last_qscale/last-variance stores are the only mutations of
that path and both are suppressed); in single-pass mode dry_run does not
suppress the other mutations (see the counterexample). -/
theorem ff_rate_estimate_qscale_pass2_dry_run_pure (cfg : RcConfig)
    (M : MathOracle) (st : RateControlState) (fi : EncFrameInfo)
    (picture_number : ℤ) :
    (ff_rate_estimate_qscale { cfg with pass2 := true } M st fi
      picture_number true).2 = st := by
  simp [ff_rate_estimate_qscale, rate_estimate_tail]

/-- get_qscale leaves the frame counts unchanged (it only accumulates
pass1_rc_eq_output_sum). -/
theorem get_qscale_frame_count (cfg : RcConfig) (M : MathOracle)
    (st : RateControlState) (rce : RateControlEntry) (rf : ℚ) (fn : ℤ) :
    (get_qscale cfg M st rce rf fn).2.frame_count = st.frame_count := by
  unfold get_qscale
  cases h : M.exprEval st rce <;> simp [h]

/-- The diff limiter leaves the frame counts unchanged. -/
theorem get_diff_limited_q_frame_count (cfg : RcConfig)
    (st : RateControlState) (rce : RateControlEntry) (q0 : ℚ) :
    (get_diff_limited_q cfg st rce q0).2.frame_count = st.frame_count := by
  unfold get_diff_limited_q
  dsimp only
  split <;> rfl

/-- The common tail returns the state unchanged on a dry run. -/
theorem rate_estimate_tail_dry (fi : EncFrameInfo) (qmin qmax : ℤ)
    (q : ℚ) (st : RateControlState) :
    (rate_estimate_tail fi true qmin qmax q st).2 = st := by
  unfold rate_estimate_tail
  simp

/-- A single-pass dry_run call still increments the frame count of the
current picture type, for every oracle, configuration and state. -/
theorem single_pass_dry_run_mutates (cfg : RcConfig) (M : MathOracle)
    (st : RateControlState) (fi : EncFrameInfo) (picture_number : ℤ) :
    (ff_rate_estimate_qscale { cfg with pass2 := false } M st fi
        picture_number true).2.frame_count fi.pict_type =
      st.frame_count fi.pict_type + 1 := by
  unfold ff_rate_estimate_qscale
  norm_num
  repeat' split
  all_goals simp [get_qscale_frame_count, get_diff_limited_q_frame_count,
    rate_estimate_tail]

/-- C7 counterexample: a dry_run call in single-pass mode does mutate
rate-control state — the P frame count changes from 1 to 2 (the
complexity-sum, short-term and pass1 accumulators change as well; the
frame count suffices to refute the claim). -/
theorem ff_rate_estimate_dry_run_mutates_counterexample :
    (ff_rate_estimate_qscale { vbvTinyCfg with pass2 := false } plainOracle
        rcInitialState sampleFrameInfo 5 true).2.frame_count
        sampleFrameInfo.pict_type ≠
      rcInitialState.frame_count sampleFrameInfo.pict_type := by
  rw [single_pass_dry_run_mutates]
  norm_num [rcInitialState]

/-- C9 counterexample: in two-pass mode the qblur check is skipped — it
sits inside the `if (!(avctx->flags & AV_CODEC_FLAG_PASS2))` block — so
an init with qblur = 2 and otherwise successful parsing succeeds. -/
theorem ff_rate_control_init_qblur_counterexample :
    1 < pass2QblurCfg.qblur ∧
    ff_rate_control_init pass2QblurCfg true 5 true true = 0 := by
  constructor
  · norm_num [pass2QblurCfg, vbvTinyCfg]
  · norm_num [ff_rate_control_init, pass2QblurCfg, vbvTinyCfg]

/-- C9 amended: the qblur > 1.0 configuration check aborts
ff_rate_control_init, but only in non-two-pass mode (the check is inside
the single-pass init block); in two-pass mode qblur is not validated. -/
theorem ff_rate_control_init_qblur_single_pass (cfg : RcConfig)
    (num_stats_frames : ℤ) (stats_ok pass2_init_ok : Bool)
    (hq : 1 < cfg.qblur) :
    ff_rate_control_init { cfg with pass2 := false } true num_stats_frames
      stats_ok pass2_init_ok = -1 := by
  unfold ff_rate_control_init
  norm_num
  exact hq

/-- Witness for the amended C9 theorem at qblur = 2. -/
theorem ff_rate_control_init_qblur_single_pass_witness :
    1 < ({ vbvTinyCfg with qblur := 2 } : RcConfig).qblur ∧
    ff_rate_control_init { { vbvTinyCfg with qblur := 2 } with pass2 := false }
      true 5 true true = -1 := by
  constructor
  · norm_num [vbvTinyCfg]
  · exact ff_rate_control_init_qblur_single_pass _ 5 true true
      (by norm_num [vbvTinyCfg])

/-- ratTrunc agrees with the floor on nonnegative arguments. -/
theorem ratTrunc_eq_floor {x : ℚ} (h : 0 ≤ x) : ratTrunc x = ⌊x⌋ := by
  unfold ratTrunc
  rw [if_pos h]

/-- The common tail of ff_rate_estimate_qscale returns a value inside
[qmin, qmax]: the clamp puts q there and the half-up integer rounding
cannot leave the range when 1 ≤ qmin ≤ qmax. -/
theorem rate_estimate_tail_range (fi : EncFrameInfo) (dry : Bool)
    (qmin qmax : ℤ) (q : ℚ) (st : RateControlState)
    (h1 : 1 ≤ qmin) (h2 : qmin ≤ qmax) :
    (qmin : ℚ) ≤ (rate_estimate_tail fi dry qmin qmax q st).1 ∧
    (rate_estimate_tail fi dry qmin qmax q st).1 ≤ (qmax : ℚ) := by
  unfold rate_estimate_tail
  dsimp only
  have h2Q : (qmin:ℚ) ≤ (qmax:ℚ) := by exact_mod_cast h2
  have h1Q : (1:ℚ) ≤ (qmin:ℚ) := by exact_mod_cast h1
  set q1 := if q < (qmin : ℚ) then (qmin : ℚ)
    else if q > (qmax : ℚ) then (qmax : ℚ) else q with hq1
  have hq1b : (qmin:ℚ) ≤ q1 ∧ q1 ≤ (qmax:ℚ) := by
    rw [hq1]
    split_ifs <;> constructor <;> linarith
  split
  · exact hq1b
  · have h0 : (0:ℚ) ≤ q1 + 1/2 := by linarith [hq1b.1]
    rw [ratTrunc_eq_floor h0]
    constructor
    · have : qmin ≤ ⌊q1 + 1/2⌋ := Int.le_floor.2 (by push_cast; linarith [hq1b.1])
      exact_mod_cast this
    · have hle : ⌊q1 + 1/2⌋ ≤ ⌊(qmax:ℚ) + 1/2⌋ :=
        Int.floor_le_floor (by linarith [hq1b.2])
      have hfl : ⌊(qmax:ℚ) + 1/2⌋ = qmax := by
        rw [Int.floor_int_add]
        norm_num
      rw [hfl] at hle
      exact_mod_cast hle

/-- Case split for the single-pass exit of ff_rate_estimate_qscale: the
result is either the -1 sentinel pair or the tail value. -/
theorem sentinel_or_tail (qmin qmax : ℤ) (G B : ℚ × RateControlState)
    (hB : (qmin : ℚ) ≤ B.1 ∧ B.1 ≤ (qmax : ℚ)) :
    (if G.1 < 0 then ((-1 : ℚ), G.2) else B).1 = -1 ∨
    ((qmin : ℚ) ≤ (if G.1 < 0 then ((-1 : ℚ), G.2) else B).1 ∧
      (if G.1 < 0 then ((-1 : ℚ), G.2) else B).1 ≤ (qmax : ℚ)) := by
  split
  · exact Or.inl rfl
  · exact Or.inr hB

/-- Every non-error return of ff_rate_estimate_qscale lies in the
get_qminmax range of the frame's picture type; the only other possible
return value is the -1 sentinel. -/
theorem ff_rate_estimate_result_cases (cfg : RcConfig) (M : MathOracle)
    (st : RateControlState) (fi : EncFrameInfo) (picture_number : ℤ)
    (dry_run : Bool) :
    (ff_rate_estimate_qscale cfg M st fi picture_number dry_run).1 = -1 ∨
    (((get_qminmax cfg fi.pict_type).1 : ℚ) ≤
        (ff_rate_estimate_qscale cfg M st fi picture_number dry_run).1 ∧
      (ff_rate_estimate_qscale cfg M st fi picture_number dry_run).1 ≤
        ((get_qminmax cfg fi.pict_type).2 : ℚ)) := by
  have hb := get_qminmax_bounds cfg fi.pict_type
  unfold ff_rate_estimate_qscale
  dsimp only
  by_cases hp : cfg.pass2 = true
  · rw [if_pos hp]
    exact Or.inr (rate_estimate_tail_range _ _ _ _ _ _ hb.1 hb.2.1)
  · rw [if_neg hp]
    exact sentinel_or_tail _ _ _ _
      (rate_estimate_tail_range _ _ _ _ _ _ hb.1 hb.2.1)

/-- C10: whenever ff_rate_estimate_qscale returns a nonnegative value
(that is, not the -1 error sentinel), the returned qscale lies within the
[qmin, qmax] range computed by get_qminmax for the frame's picture type —
in both single-pass and two-pass modes, regardless of dry_run, bitrate
drift or VBV state (the final clamp and rounding run on every non-error
path). -/
theorem ff_rate_estimate_qscale_in_range (cfg : RcConfig) (M : MathOracle)
    (st : RateControlState) (fi : EncFrameInfo) (picture_number : ℤ)
    (dry_run : Bool)
    (h : 0 ≤ (ff_rate_estimate_qscale cfg M st fi picture_number dry_run).1) :
    ((get_qminmax cfg fi.pict_type).1 : ℚ) ≤
      (ff_rate_estimate_qscale cfg M st fi picture_number dry_run).1 ∧
    (ff_rate_estimate_qscale cfg M st fi picture_number dry_run).1 ≤
      ((get_qminmax cfg fi.pict_type).2 : ℚ) := by
  rcases ff_rate_estimate_result_cases cfg M st fi picture_number dry_run with hc | hc
  · rw [hc] at h
    norm_num at h
  · exact hc

/-- Witness for C10: a concrete two-pass call returns 300, inside the
[118, 3658] range of its P frame. -/
theorem ff_rate_estimate_qscale_in_range_witness :
    0 ≤ (ff_rate_estimate_qscale pass2WitnessCfg plainOracle
          pass2WitnessState sampleFrameInfo 0 false).1 ∧
    ((get_qminmax pass2WitnessCfg sampleFrameInfo.pict_type).1 : ℚ) ≤
      (ff_rate_estimate_qscale pass2WitnessCfg plainOracle
        pass2WitnessState sampleFrameInfo 0 false).1 ∧
    (ff_rate_estimate_qscale pass2WitnessCfg plainOracle
        pass2WitnessState sampleFrameInfo 0 false).1 ≤
      ((get_qminmax pass2WitnessCfg sampleFrameInfo.pict_type).2 : ℚ) := by
  have h : (ff_rate_estimate_qscale pass2WitnessCfg plainOracle
      pass2WitnessState sampleFrameInfo 0 false).1 = 300 := by
    norm_num [ff_rate_estimate_qscale, rate_estimate_tail, get_qminmax,
      pass2WitnessCfg, vbvTinyCfg, pass2WitnessState, rcInitialState,
      pass2WitnessEntry, sampleEntryP, sampleFrameInfo, plainOracle,
      av_clip, ratTrunc, AV_PICTURE_TYPE_I, AV_PICTURE_TYPE_P,
      AV_PICTURE_TYPE_B, FF_LAMBDA_MAX, List.getD]
  refine ⟨by rw [h]; norm_num, ?_⟩
  exact ff_rate_estimate_qscale_in_range pass2WitnessCfg plainOracle
    pass2WitnessState sampleFrameInfo 0 false (by rw [h]; norm_num)
